import Mathlib

/-!
Verification of the task-dispatch core of the synthetic-intelligence
platform repository (`src/src/agents/base_agent.py`,
`src/src/agents/orchestrator.py`, `src/src/agents/content_creator.py`).

Modelling conventions for the shallow embedding:

* Time: every call to `datetime.now()` is modelled by reading a `Nat`
  clock that strictly increases between consecutive reads; `isoformat`
  is modelled by an injective rendering of the clock value to a string.
* Python `Dict[str, Any]` payload/result values are modelled by the
  opaque association-list type `PMap`; nothing in the core inspects
  their contents.
* Python dicts (`BaseAgent._tasks`, `AgentOrchestrator.agents`) are
  modelled by insertion-ordered association lists, where updating an
  existing key replaces the value in place (Python dict semantics:
  `d[k] = v` keeps the original insertion position of `k`).
* `execute` is an abstract coroutine supplied by a concrete agent.  In
  Python it receives the `Task` object, may mutate it in place, and
  either returns a value or raises.  It is modelled by a function
  `Task → Task × ExecRet`: the first component is the state of the
  task object when `execute` finishes (normally or by raising), and
  `ExecRet` records whether it returned the task object itself
  (`.task`, the case for every `execute` in this repository), returned
  some non-`Task` value (`.val v`), or raised with a message
  (`.exn msg`).
* In-place mutation of a `Task` that is shared between an agent's
  `_tasks` table and the queue is made explicit: after
  `process_task`, the mutated task is written back into the owning
  agent's table (in Python this happens implicitly through aliasing).
-/

namespace SynthPlatform

/-- Task lifecycle status; the Python code uses the four strings
`"pending"`, `"running"`, `"completed"`, `"failed"`. -/
inductive Status where
  | pending
  | running
  | completed
  | failed
  deriving DecidableEq, Repr

/-- The string the Python code stores in `task.status`. -/
def Status.toStr : Status → String
  | .pending => "pending"
  | .running => "running"
  | .completed => "completed"
  | .failed => "failed"

/-- Opaque stand-in for a Python `Dict[str, Any]` (payload / result). -/
abbrev PMap := List (String × String)

/-- `Task` dataclass from `base_agent.py`: id, type, payload, status,
result, error and the three timestamps. -/
structure Task where
  id : String
  type : String
  payload : PMap
  status : Status
  result : Option PMap
  error : Option String
  created_at : Nat
  started_at : Option Nat
  completed_at : Option Nat
  deriving DecidableEq, Repr

/-- Stand-in for `datetime.isoformat`: an injective rendering of a
model timestamp to a string. -/
def isoformat (n : Nat) : String := toString n

/-- Value type of the dictionary returned by `Task.to_dict`: entries
are `None`, strings, or opaque mappings. -/
inductive DVal where
  | null
  | str (s : String)
  | map (m : PMap)
  deriving DecidableEq, Repr

/-- Association-list lookup (Python `dict.get`). -/
def dget {α : Type} (k : String) : List (String × α) → Option α
  | [] => none
  | (k', v) :: rest => if k' = k then some v else dget k rest

/-- Association-list update with Python dict semantics: assigning to
an existing key replaces its value in place, a new key is appended. -/
def dinsert {α : Type} (k : String) (v : α) : List (String × α) → List (String × α)
  | [] => [(k, v)]
  | (k', v') :: rest => if k' = k then (k, v) :: rest else (k', v') :: dinsert k v rest

/-- `Task.to_dict` from `base_agent.py`: renders all nine fields;
`created_at` is always rendered with `isoformat`, while `started_at`
and `completed_at` are rendered with `isoformat` when set and as
`None` when unset. -/
def Task.to_dict (t : Task) : List (String × DVal) :=
  [ ("id", .str t.id),
    ("type", .str t.type),
    ("payload", .map t.payload),
    ("status", .str t.status.toStr),
    ("result", match t.result with | some m => .map m | none => .null),
    ("error", match t.error with | some e => .str e | none => .null),
    ("created_at", .str (isoformat t.created_at)),
    ("started_at", match t.started_at with | some n => .str (isoformat n) | none => .null),
    ("completed_at", match t.completed_at with | some n => .str (isoformat n) | none => .null) ]

/-- How an `execute` coroutine finished: returned the task object
itself, returned a non-`Task` value, or raised an exception. -/
inductive ExecRet where
  | task
  | val (v : Option PMap)
  | exn (msg : String)

/-- Model of an `execute` implementation: the task object's state when
`execute` finishes, plus how it finished. -/
def ExecFn := Task → Task × ExecRet

/-- A `BaseAgent`: name, capability list, task table, and the
collaborator-supplied `execute`. -/
structure Agent where
  name : String
  capabilities : List String
  tasks : List (String × Task)
  exec : ExecFn

/-- `BaseAgent.can_handle`: membership of the task type in
`capabilities`. -/
def Agent.can_handle (a : Agent) (task_type : String) : Bool :=
  task_type ∈ a.capabilities

/-- The error message `validate_task` stores on a capability
mismatch. -/
def mismatchMsg (a : Agent) (t : Task) : String :=
  "Agent " ++ a.name ++ " cannot handle task type: " ++ t.type

/-- `BaseAgent.validate_task`: on a capability mismatch, sets the
error and the `failed` status on the task and reports `false`. -/
def Agent.validate_task (a : Agent) (t : Task) : Bool × Task :=
  if a.can_handle t.type then (true, t)
  else (false, { t with error := some (mismatchMsg a t), status := .failed })

/-- `BaseAgent.create_task`: allocates a pending task (fresh id from
the caller, `created_at` from the clock) and registers it in the
agent's `_tasks` table. -/
def Agent.create_task (a : Agent) (task_type : String) (payload : PMap)
    (tid : String) (clock : Nat) : Task × Agent :=
  let t : Task :=
    { id := tid
      type := task_type
      payload := payload
      status := .pending
      result := none
      error := none
      created_at := clock
      started_at := none
      completed_at := none }
  (t, { a with tasks := dinsert tid t a.tasks })

/-- `BaseAgent.get_task`. -/
def Agent.get_task (a : Agent) (tid : String) : Option Task :=
  dget tid a.tasks

/-- `BaseAgent.get_tasks` with an optional status filter. -/
def Agent.get_tasks (a : Agent) (status : Option Status) : List Task :=
  match status with
  | some s => (a.tasks.map Prod.snd).filter (fun t => t.status = s)
  | none => a.tasks.map Prod.snd

/-- `BaseAgent.process_task`.  The clock is read for `started_at`, a
later clock value for `completed_at`; the returned clock has advanced
past every read.  On a capability mismatch `validate_task` has already
recorded the failure and the task is returned immediately; otherwise
the task is marked running, `execute` runs, and its outcome is
recorded as completed (with `task.result = result.result` when a
`Task` was returned, otherwise the returned value) or, when it raised,
as failed with the exception's message. -/
def Agent.process_task (a : Agent) (t : Task) (clock : Nat) : Task × Nat :=
  match a.validate_task t with
  | (false, tv) => (tv, clock)
  | (true, _) =>
    let t1 : Task := { t with status := .running, started_at := some clock }
    let er := a.exec t1
    match er.2 with
    | .task =>
      ({ er.1 with
          status := .completed
          completed_at := some (clock + 1)
          result := er.1.result }, clock + 2)
    | .val v =>
      ({ er.1 with
          status := .completed
          completed_at := some (clock + 1)
          result := v }, clock + 2)
    | .exn msg =>
      ({ er.1 with
          status := .failed
          error := some msg
          completed_at := some (clock + 1) }, clock + 2)

/-- `AgentOrchestrator` state: the agent registry (insertion-ordered
dict), the FIFO task queue of `(agent name, task)` pairs, the two
terminal ledgers, and the running flag. -/
structure Orch where
  agents : List (String × Agent)
  task_queue : List (String × Task)
  completed_tasks : List Task
  failed_tasks : List Task
  is_running : Bool

/-- `AgentOrchestrator.register_agent`: inserts by name, last
registration for a name wins (dict assignment). -/
def Orch.register_agent (st : Orch) (a : Agent) : Orch :=
  { st with agents := dinsert a.name a st.agents }

/-- `AgentOrchestrator.get_agent`. -/
def Orch.get_agent (st : Orch) (agent_name : String) : Option Agent :=
  dget agent_name st.agents

/-- `AgentOrchestrator.find_agent_for_task`: first agent in registry
iteration order whose capabilities include the task type. -/
def Orch.find_agent_for_task (st : Orch) (task_type : String) : Option Agent :=
  (st.agents.find? (fun p => p.2.can_handle task_type)).map Prod.snd

/-- Helper for `submit_task`: creates the task on the chosen agent,
writes the agent back (in Python the agent object in the dict is
mutated in place), and appends `(agent.name, task)` to the queue. -/
def Orch.submit_to (st : Orch) (a : Agent) (task_type : String) (payload : PMap)
    (tid : String) (clock : Nat) : Option Task × Orch :=
  let ta := a.create_task task_type payload tid clock
  (some ta.1,
   { st with
      agents := dinsert a.name ta.2 st.agents
      task_queue := st.task_queue ++ [(a.name, ta.1)] })

/-- `AgentOrchestrator.submit_task`: with an explicit agent name, the
agent must exist and be able to handle the type, otherwise `None` is
returned and nothing changes; without a name, the first capable agent
is used, `None` when there is none. -/
def Orch.submit_task (st : Orch) (task_type : String) (payload : PMap)
    (agent_name : Option String) (tid : String) (clock : Nat) : Option Task × Orch :=
  match agent_name with
  | some n =>
    match st.get_agent n with
    | none => (none, st)
    | some a =>
      if a.can_handle task_type then st.submit_to a task_type payload tid clock
      else (none, st)
  | none =>
    match st.find_agent_for_task task_type with
    | none => (none, st)
    | some a => st.submit_to a task_type payload tid clock

/-- One iteration of the pump-loop body `AgentOrchestrator._worker`:
an empty queue is the timeout branch (`continue`); otherwise the head
pair is dequeued, the agent is resolved (a vanished agent drops the
item), the task is driven by `process_task`, the mutated task is
written back to the owning agent's table (aliasing in Python), and the
task is appended to `completed_tasks` when its status is `completed`
and to `failed_tasks` otherwise. -/
def Orch.worker_step (st : Orch) (clock : Nat) : Orch × Nat :=
  match st.task_queue with
  | [] => (st, clock)
  | (agent_name, task) :: rest =>
    let st0 := { st with task_queue := rest }
    match st0.get_agent agent_name with
    | none => (st0, clock)
    | some a =>
      let tc := a.process_task task clock
      let a' := { a with tasks := dinsert tc.1.id tc.1 a.tasks }
      let st1 := { st0 with agents := dinsert agent_name a' st0.agents }
      if tc.1.status = .completed then
        ({ st1 with completed_tasks := st1.completed_tasks ++ [tc.1] }, tc.2)
      else
        ({ st1 with failed_tasks := st1.failed_tasks ++ [tc.1] }, tc.2)

/-- Per-agent entry of the status snapshot. -/
structure AgentStatus where
  capabilities : List String
  tasks_completed : Nat
  tasks_failed : Nat
  tasks_running : Nat
  success_rate : ℚ
  deriving Repr

/-- The snapshot returned by `get_system_status`. -/
structure SystemStatus where
  total_tasks_processed : Nat
  success_rate : ℚ
  queue_size : Nat
  agents : List (String × AgentStatus)
  is_running : Bool
  deriving Repr

/-- `AgentOrchestrator.get_system_status`: totals over the global
ledgers (success rate as a percentage, 0 when no terminal tasks),
current queue size, and a per-agent breakdown computed from each
agent's own task table.  Python float division is modelled with exact
rationals. -/
def Orch.get_system_status (st : Orch) : SystemStatus :=
  let total_tasks := st.completed_tasks.length + st.failed_tasks.length
  let success_rate : ℚ :=
    if total_tasks > 0 then
      (st.completed_tasks.length : ℚ) / (total_tasks : ℚ) * 100
    else 0
  let agent_status := st.agents.map (fun p =>
    let agent_tasks := p.2.get_tasks none
    let completed := (agent_tasks.filter (fun t => t.status = .completed)).length
    let failed := (agent_tasks.filter (fun t => t.status = .failed)).length
    let running := (agent_tasks.filter (fun t => t.status = .running)).length
    (p.1,
     { capabilities := p.2.capabilities
       tasks_completed := completed
       tasks_failed := failed
       tasks_running := running
       success_rate :=
         if completed + failed > 0 then
           (completed : ℚ) / ((completed + failed : Nat) : ℚ) * 100
         else 0 : AgentStatus }))
  { total_tasks_processed := total_tasks
    success_rate := success_rate
    queue_size := st.task_queue.length
    agents := agent_status
    is_running := st.is_running }

/-- Fresh task ids (`uuid.uuid4()` in the source) are modelled by a
counter rendered to a string. -/
def taskId (n : Nat) : String := "task-" ++ toString n

/-- The `AttributeError` raised when the workflow poller dereferences
a `None` task or agent. -/
def attrErrMsg : String := "AttributeError: NoneType has no attribute"

/-- The polling loop inside `AgentOrchestrator.execute_workflow`:
`while task.status in [pending, running]: await sleep(0.1); task =
self.get_agent(agent_name).get_task(task.id) if agent_name else None`.
The `sleep` is the suspension point at which the pump loops make
progress; it is modelled by one `worker_step`.  When `agent_name` is
absent the re-read sets `task = None` and the next loop check raises
`AttributeError`; a missing agent or a missing task id raises the same
way.  `fuel` bounds the otherwise unbounded loop; exhaustion is
reported as an error distinct from any Python behaviour. -/
def Orch.pollLoop (st : Orch) (fuel clock : Nat) (agent_name : Option String)
    (task : Task) : Except String (Task × Orch × Nat) :=
  match fuel with
  | 0 => .error "fuel exhausted"
  | fuel + 1 =>
    if task.status = .pending ∨ task.status = .running then
      let sc := st.worker_step clock
      match agent_name with
      | none => .error attrErrMsg
      | some n =>
        match sc.1.get_agent n with
        | none => .error attrErrMsg
        | some a =>
          match a.get_task task.id with
          | none => .error attrErrMsg
          | some t2 => sc.1.pollLoop fuel sc.2 agent_name t2
    else .ok (task, st, clock)

/-- One step of a workflow: `type` (required key), `payload`
(defaulted to `{}`), optional `agent` name, optional
`continue_on_failure` flag (absent key modelled as `none`). -/
structure WStep where
  type : String
  payload : PMap
  agent : Option String
  continue_on_failure : Option Bool

/-- `AgentOrchestrator.execute_workflow`: for each step in order,
submit; a failed submission silently skips the step; otherwise poll
the task to a terminal status, append it to the results, and stop
early when it failed and `continue_on_failure` (default `true`) is
`false`.  Returns the result list together with the final state,
clock, and id counter; exceptions escaping the poll loop abort the
whole workflow (`Except.error`). -/
def Orch.execute_workflow (st : Orch) (fuel : Nat) (steps : List WStep)
    (clock nextId : Nat) : Except String (List Task × Orch × Nat × Nat) :=
  match steps with
  | [] => .ok ([], st, clock, nextId)
  | step :: rest =>
    let so := st.submit_task step.type step.payload step.agent (taskId nextId) clock
    match so.1 with
    | none => so.2.execute_workflow fuel rest (clock + 1) (nextId + 1)
    | some t =>
      match so.2.pollLoop fuel (clock + 1) step.agent t with
      | .error e => .error e
      | .ok (tfin, st2, clock2) =>
        if tfin.status = .failed ∧ step.continue_on_failure.getD true = false then
          .ok ([tfin], st2, clock2, nextId + 1)
        else
          (st2.execute_workflow fuel rest clock2 (nextId + 1)).map
            (fun r => (tfin :: r.1, r.2))

/-- Capabilities declared by `ContentCreatorAgent.__init__`. -/
def contentCreatorCapabilities : List String :=
  [ "blog_post", "social_media_post", "email_newsletter",
    "video_script", "ad_copy", "product_description",
    "content_optimization", "seo_analysis" ]

/-- `ContentCreatorAgent.execute`: dispatches on `task.type` to the
four implemented handlers; for any other type it sets `task.error =
"Unsupported task type: ..."` on the task and returns the task
normally (it does not raise).  The four handlers call the external
LLM wrapper (outside the core, `src/src/models/llm_wrapper.py` is not
part of the dispatch core), so they are modelled by an opaque
parameter `branch`; each handler returns the task object it was given
(possibly with `result` or `error` set), never raising. -/
def contentCreatorExecute (branch : String → Task → Task) : ExecFn := fun t =>
  if t.type = "blog_post" then (branch "blog_post" t, .task)
  else if t.type = "social_media_post" then (branch "social_media_post" t, .task)
  else if t.type = "video_script" then (branch "video_script" t, .task)
  else if t.type = "content_optimization" then (branch "content_optimization" t, .task)
  else ({ t with error := some ("Unsupported task type: " ++ t.type) }, .task)

/-- A concrete contract-conforming agent used in witnesses: capability
`"echo"`, `execute` returns the task object with the payload echoed as
the result. -/
def echoExec : ExecFn := fun t => ({ t with result := some t.payload }, .task)

def echoAgent : Agent :=
  { name := "w1", capabilities := ["echo"], tasks := [], exec := echoExec }

/-- A concrete agent whose `execute` always raises `"boom"`. -/
def boomExec : ExecFn := fun t => (t, .exn "boom")

def boomAgent : Agent :=
  { name := "w2", capabilities := ["fail"], tasks := [], exec := boomExec }

/-- The `ContentCreatorAgent` with the four LLM-backed handlers left
opaque (returning the task unchanged, as any handler may when the
external LLM is involved). -/
def ccAgent : Agent :=
  { name := "content_creator", capabilities := contentCreatorCapabilities,
    tasks := [], exec := contentCreatorExecute (fun _ t => t) }

/-- A lookup hit names an entry of the association list. -/
theorem dget_mem {α : Type} (k : String) (v : α) :
    ∀ l : List (String × α), dget k l = some v → (k, v) ∈ l := by
  intro l
  induction l with
  | nil => intro h; simp [dget] at h
  | cons hd tl ih =>
    intro h
    by_cases hk : hd.1 = k
    · simp only [dget, hk, if_pos] at h
      cases h
      have he : (k, hd.2) = hd := by cases hd; simp_all
      rw [he]
      exact List.mem_cons_self _ _
    · have := ih (by simpa [dget, hk] using h)
      exact List.mem_cons_of_mem _ this

/-- `find?` returns the first satisfying element: the list splits at
the hit and everything before it fails the predicate. -/
theorem find?_first_split {α : Type} (p : α → Bool) :
    ∀ (l : List α) (x : α), l.find? p = some x →
      p x = true ∧ ∃ l1 l2, l = l1 ++ x :: l2 ∧ ∀ y ∈ l1, p y = false := by
  intro l
  induction l with
  | nil => intro x h; simp at h
  | cons hd tl ih =>
    intro x h
    by_cases hp : p hd
    · rw [List.find?_cons_of_pos _ hp] at h
      cases h
      exact ⟨hp, [], tl, rfl, by simp⟩
    · rw [List.find?_cons_of_neg _ hp] at h
      obtain ⟨hx, l1, l2, rfl, hall⟩ := ih x h
      refine ⟨hx, hd :: l1, l2, rfl, ?_⟩
      intro y hy
      rcases List.mem_cons.1 hy with rfl | hy
      · simpa using hp
      · exact hall y hy

/-- C9: `find_agent_for_task` returns the first registered agent (in
registration order) whose capabilities include the type, and `none`
exactly when no registered agent can handle it; any returned agent
satisfies `can_handle`. -/
theorem find_agent_for_task_first_capable (st : Orch) (ty : String) :
    (∀ a, st.find_agent_for_task ty = some a →
       a.can_handle ty = true ∧
       ∃ l1 n l2, st.agents = l1 ++ (n, a) :: l2 ∧
         ∀ q ∈ l1, q.2.can_handle ty = false) ∧
    (st.find_agent_for_task ty = none ↔
       ∀ q ∈ st.agents, q.2.can_handle ty = false) := by
  constructor
  · intro a h
    unfold Orch.find_agent_for_task at h
    obtain ⟨q, hq, rfl⟩ := Option.map_eq_some'.1 h
    obtain ⟨hcap, l1, l2, hsplit, hall⟩ :=
      find?_first_split (fun q => q.2.can_handle ty) st.agents q hq
    exact ⟨hcap, l1, q.1, l2, by simpa using hsplit, hall⟩
  · unfold Orch.find_agent_for_task
    rw [Option.map_eq_none', List.find?_eq_none]
    constructor
    · intro h q hq
      have := h q hq
      simpa using this
    · intro h q hq
      simpa using h q hq

/-- C9 witness: on a registry holding the echo agent, routing finds it
for `"echo"` (it is the first capable agent) and finds nothing for
`"unknown"`. -/
theorem find_agent_for_task_witness :
    (Orch.mk [("w1", echoAgent)] [] [] [] true).find_agent_for_task "echo" = some echoAgent ∧
    echoAgent.can_handle "echo" = true ∧
    (Orch.mk [("w1", echoAgent)] [] [] [] true).find_agent_for_task "unknown" = none := by
  refine ⟨rfl, ?_, ?_⟩
  · exact ((find_agent_for_task_first_capable (Orch.mk [("w1", echoAgent)] [] [] [] true)
      "echo").1 echoAgent rfl).1
  · exact (find_agent_for_task_first_capable (Orch.mk [("w1", echoAgent)] [] [] [] true)
      "unknown").2.2 (by intro q hq; simp at hq; rw [hq]; rfl)

/-- C10: `to_dict` is total on every task, returns exactly the nine
fields in order, renders `created_at` with `isoformat`, and renders
`started_at` / `completed_at` with `isoformat` when set and as the
null value when unset. -/
theorem to_dict_nine_fields (t : Task) :
    t.to_dict.map Prod.fst =
      ["id", "type", "payload", "status", "result", "error",
       "created_at", "started_at", "completed_at"] ∧
    dget "created_at" t.to_dict = some (.str (isoformat t.created_at)) ∧
    dget "started_at" t.to_dict =
      some (match t.started_at with | some n => .str (isoformat n) | none => .null) ∧
    dget "completed_at" t.to_dict =
      some (match t.completed_at with | some n => .str (isoformat n) | none => .null) :=
  ⟨rfl, rfl, rfl, rfl⟩

/-- The §4.1 contract for `execute`: it never assigns `status`,
`started_at` or `completed_at`, and `created_at` is immutable.  Every
`execute` in this repository satisfies it. -/
def ExecConforming (e : ExecFn) : Prop :=
  ∀ u, (e u).1.status = u.status ∧ (e u).1.started_at = u.started_at ∧
       (e u).1.completed_at = u.completed_at ∧ (e u).1.created_at = u.created_at

/-- The successive values taken by the `status` field of a task while
`process_task` drives it, for `execute` implementations honouring the
contract of never assigning `status` themselves: the initial status,
then `running` when validation passed, then the final status. -/
def Agent.statusesVisited (a : Agent) (t : Task) (clock : Nat) : List Status :=
  if a.can_handle t.type then
    [t.status, .running, (a.process_task t clock).1.status]
  else
    [t.status, (a.process_task t clock).1.status]

/-- C1: a pending task driven by `process_task` (with a
contract-conforming `execute`) has its status visit exactly
`pending → failed` on a capability mismatch (never touching
`running`), and otherwise `pending → running → completed` or
`pending → running → failed`; it never returns to `pending` or
`running` after leaving them. -/
theorem process_task_status_machine (a : Agent) (t : Task) (clock : Nat)
    (hp : t.status = .pending)
    (_hexec : ∀ u, (a.exec u).1.status = u.status) :
    (a.can_handle t.type = false →
       a.statusesVisited t clock = [.pending, .failed]) ∧
    (a.can_handle t.type = true →
       a.statusesVisited t clock = [.pending, .running, .completed] ∨
       a.statusesVisited t clock = [.pending, .running, .failed]) := by
  constructor
  · intro hcap
    unfold Agent.statusesVisited Agent.process_task Agent.validate_task
    rw [hcap, hp]
    simp
  · intro hcap
    unfold Agent.statusesVisited Agent.process_task Agent.validate_task
    rw [hcap, hp]
    cases hr : (a.exec { t with status := .running, started_at := some clock }).2 with
    | task => left; simp [hr]
    | val v => left; simp [hr]
    | exn msg => right; simp [hr]

/-- C1 witness: the echo agent on a fresh `"echo"` task walks
`pending → running → completed`, and on a fresh `"unknown"` task walks
`pending → failed`. -/
theorem process_task_status_machine_witness :
    echoAgent.statusesVisited ((echoAgent.create_task "echo" [] "t0" 0).1) 1 =
      [.pending, .running, .completed] ∧
    echoAgent.statusesVisited ((echoAgent.create_task "unknown" [] "t1" 0).1) 1 =
      [.pending, .failed] := by
  constructor
  · have h := (process_task_status_machine echoAgent
      ((echoAgent.create_task "echo" [] "t0" 0).1) 1 rfl (fun _ => rfl)).2 rfl
    rcases h with h | h
    · exact h
    · exact absurd h (by decide)
  · exact (process_task_status_machine echoAgent
      ((echoAgent.create_task "unknown" [] "t1" 0).1) 1 rfl (fun _ => rfl)).1 rfl

/-- Task states observable through the core operations: a task
freshly created by `create_task`; the in-execution state that
`process_task` installs just before awaiting `execute` (visible at the
suspension point); the states a conforming `execute` leaves the task
object in; and the state returned by `process_task`.  A task is driven
through `process_task` at most once, by one agent, starting from its
freshly created pending state. -/
inductive CoreReach : Task → Prop where
  | created (a : Agent) (ty : String) (p : PMap) (tid : String) (c : Nat) :
      CoreReach (a.create_task ty p tid c).1
  | midRun (a a' : Agent) (ty : String) (p : PMap) (tid : String) (c c' : Nat) :
      a'.can_handle ty = true →
      CoreReach { (a.create_task ty p tid c).1 with status := .running, started_at := some c' }
  | midExec (a a' : Agent) (ty : String) (p : PMap) (tid : String) (c c' : Nat) :
      a'.can_handle ty = true →
      ExecConforming a'.exec →
      CoreReach (a'.exec { (a.create_task ty p tid c).1 with status := .running, started_at := some c' }).1
  | processed (a a' : Agent) (ty : String) (p : PMap) (tid : String) (c c' : Nat) :
      ExecConforming a'.exec →
      CoreReach (a'.process_task (a.create_task ty p tid c).1 c').1

/-- The timestamp/status invariant the code actually maintains:
`started_at` is set exactly when the task reached `running` (so not
for capability-mismatch failures), `completed_at` is set exactly when
the task reached a terminal state through execution; a `failed` task
either carries both timestamps (execution failure) or neither
(capability mismatch). -/
def TimestampInv (t : Task) : Prop :=
  (t.status = .pending → t.started_at = none ∧ t.completed_at = none) ∧
  (t.status = .running → t.started_at ≠ none ∧ t.completed_at = none) ∧
  (t.status = .completed → t.started_at ≠ none ∧ t.completed_at ≠ none) ∧
  (t.status = .failed →
     (t.started_at ≠ none ∧ t.completed_at ≠ none) ∨
     (t.started_at = none ∧ t.completed_at = none))

/-- C3 counterexample: the claim says `completed_at` is set for every
terminal task, including capability-mismatch failures; but the echo
agent processing a fresh `"unknown"` task yields a `failed` (terminal)
task whose `completed_at` (and `started_at`) is unset. -/
theorem mismatch_failure_has_no_completed_at :
    ((echoAgent.process_task ((echoAgent.create_task "unknown" [] "t0" 0).1) 5).1.status
      = .failed) ∧
    ((echoAgent.process_task ((echoAgent.create_task "unknown" [] "t0" 0).1) 5).1.completed_at
      = none) ∧
    ((echoAgent.process_task ((echoAgent.create_task "unknown" [] "t0" 0).1) 5).1.started_at
      = none) :=
  ⟨rfl, rfl, rfl⟩

/-- C3 (amended): for every task state reachable through the core
operations, `started_at` is set iff the task reached `running`, and
`completed_at` is set iff the task reached a terminal state through
execution; a capability-mismatch failure is terminal with both
timestamps unset. -/
theorem core_timestamp_invariant (t : Task) (h : CoreReach t) : TimestampInv t := by
  induction h with
  | created a ty p tid c =>
    refine ⟨fun _ => ⟨rfl, rfl⟩, fun hs => ?_, fun hs => ?_, fun hs => ?_⟩ <;>
      simp [Agent.create_task] at hs
  | midRun a a' ty p tid c c' hcap =>
    exact ⟨fun hs => by simp [Agent.create_task] at hs,
           fun _ => ⟨by simp [Agent.create_task], rfl⟩,
           fun hs => by simp [Agent.create_task] at hs,
           fun hs => by simp [Agent.create_task] at hs⟩
  | midExec a a' ty p tid c c' hcap hconf =>
    obtain ⟨h1, h2, h3, h4⟩ :=
      hconf { (a.create_task ty p tid c).1 with status := .running, started_at := some c' }
    unfold TimestampInv
    rw [h1, h2, h3]
    simp [Agent.create_task]
  | processed a a' ty p tid c c' hconf =>
    unfold Agent.process_task Agent.validate_task
    by_cases hcap : a'.can_handle (a.create_task ty p tid c).1.type
    · rw [if_pos hcap]
      obtain ⟨h1, h2, h3, h4⟩ :=
        hconf { (a.create_task ty p tid c).1 with status := .running, started_at := some c' }
      cases hr : (a'.exec { (a.create_task ty p tid c).1 with
          status := .running, started_at := some c' }).2 with
      | task =>
        simp only [hr]
        exact ⟨fun hs => by simp at hs, fun hs => by simp at hs,
               fun _ => ⟨by simp [h2], by simp⟩, fun hs => by simp at hs⟩
      | val v =>
        simp only [hr]
        exact ⟨fun hs => by simp at hs, fun hs => by simp at hs,
               fun _ => ⟨by simp [h2], by simp⟩, fun hs => by simp at hs⟩
      | exn msg =>
        simp only [hr]
        exact ⟨fun hs => by simp at hs, fun hs => by simp at hs,
               fun hs => by simp at hs, fun _ => Or.inl ⟨by simp [h2], by simp⟩⟩
    · rw [if_neg hcap]
      exact ⟨fun hs => by simp at hs, fun hs => by simp at hs,
             fun hs => by simp at hs,
             fun _ => Or.inr ⟨by simp [Agent.create_task], by simp [Agent.create_task]⟩⟩

/-- C3 witness: the invariant holds for the concrete task the echo
agent has just processed to completion. -/
theorem core_timestamp_invariant_witness :
    TimestampInv (echoAgent.process_task ((echoAgent.create_task "echo" [] "t0" 0).1) 1).1 :=
  core_timestamp_invariant _
    (CoreReach.processed echoAgent echoAgent "echo" [] "t0" 0 1
      (fun _ => ⟨rfl, rfl, rfl, rfl⟩))

/-- C2 counterexample: `ContentCreatorAgent` declares
`"email_newsletter"` as a capability but its `execute` has no handler
for it: it sets `task.error` and returns normally, so `process_task`
records the task as `completed` while `error` is set and `result` is
unset — refuting "exactly one of `result` (if completed) or `error`
(if failed) is set" for arbitrary `execute` implementations. -/
theorem completed_task_with_error_set :
    ((ccAgent.process_task ((ccAgent.create_task "email_newsletter" [] "t0" 0).1) 1).1.status
      = .completed) ∧
    ((ccAgent.process_task ((ccAgent.create_task "email_newsletter" [] "t0" 0).1) 1).1.error
      = some "Unsupported task type: email_newsletter") ∧
    ((ccAgent.process_task ((ccAgent.create_task "email_newsletter" [] "t0" 0).1) 1).1.result
      = none) := by
  refine ⟨rfl, ?_, rfl⟩
  show some ("Unsupported task type: " ++ "email_newsletter") =
    some "Unsupported task type: email_newsletter"
  rfl

/-- C2 (amended): restricted to `execute` implementations that honour
the §4.1 contract — they preserve the driver-owned fields, on a
normal return they have set `result` and left `error` unset, and when
raising they have not set `result` — a freshly created task processed
by `process_task` ends terminal with exactly one of `result`
(completed) or `error` (failed) set, and whenever `started_at` and
`completed_at` are both set they satisfy
`created_at ≤ started_at ≤ completed_at`. -/
theorem process_task_exclusive_outcome (a : Agent) (t : Task) (clock : Nat)
    (hconf : ExecConforming a.exec)
    (hok : ∀ u, u.error = none → (a.exec u).2 = .task →
       (a.exec u).1.result ≠ none ∧ (a.exec u).1.error = none)
    (hval : ∀ u v, u.error = none → (a.exec u).2 = .val v →
       v ≠ none ∧ (a.exec u).1.error = none)
    (hexn : ∀ u m, u.result = none → (a.exec u).2 = .exn m →
       (a.exec u).1.result = none)
    (hres : t.result = none) (herr : t.error = none)
    (hst : t.started_at = none) (_hct : t.completed_at = none)
    (hcr : t.created_at ≤ clock) :
    ((a.process_task t clock).1.status = .completed ∨
     (a.process_task t clock).1.status = .failed) ∧
    ((a.process_task t clock).1.status = .completed →
       (a.process_task t clock).1.result ≠ none ∧
       (a.process_task t clock).1.error = none) ∧
    ((a.process_task t clock).1.status = .failed →
       (a.process_task t clock).1.error ≠ none ∧
       (a.process_task t clock).1.result = none) ∧
    (∀ s c2, (a.process_task t clock).1.started_at = some s →
       (a.process_task t clock).1.completed_at = some c2 →
       (a.process_task t clock).1.created_at ≤ s ∧ s ≤ c2) := by
  unfold Agent.process_task Agent.validate_task
  by_cases hcap : a.can_handle t.type
  · rw [if_pos hcap]
    obtain ⟨h1, h2, h3, h4⟩ := hconf { t with status := .running, started_at := some clock }
    cases hr : (a.exec { t with status := .running, started_at := some clock }).2 with
    | task =>
      obtain ⟨hr1, hr2⟩ := hok { t with status := .running, started_at := some clock }
        (by simpa using herr) hr
      simp only [hr]
      refine ⟨by simp, fun _ => ⟨by simpa using hr1, by simpa using hr2⟩,
        fun hs => by simp at hs, ?_⟩
      intro s c2 hs hc2
      simp only [h2] at hs
      simp at hs hc2
      subst hs
      subst hc2
      simp only [h4]
      exact ⟨by simpa using hcr, Nat.le_succ clock⟩
    | val v =>
      obtain ⟨hr1, hr2⟩ := hval { t with status := .running, started_at := some clock } v
        (by simpa using herr) hr
      simp only [hr]
      refine ⟨by simp, fun _ => ⟨by simpa using hr1, by simpa using hr2⟩,
        fun hs => by simp at hs, ?_⟩
      intro s c2 hs hc2
      simp only [h2] at hs
      simp at hs hc2
      subst hs
      subst hc2
      simp only [h4]
      exact ⟨by simpa using hcr, Nat.le_succ clock⟩
    | exn msg =>
      have hr1 := hexn { t with status := .running, started_at := some clock } msg
        (by simpa using hres) hr
      simp only [hr]
      refine ⟨by simp, fun hs => by simp at hs,
        fun _ => ⟨by simp, by simpa using hr1⟩, ?_⟩
      intro s c2 hs hc2
      simp only [h2] at hs
      simp at hs hc2
      subst hs
      subst hc2
      simp only [h4]
      exact ⟨by simpa using hcr, Nat.le_succ clock⟩
  · rw [if_neg hcap]
    refine ⟨by simp, fun hs => by simp at hs,
      fun _ => ⟨by simp, by simpa using hres⟩, ?_⟩
    intro s c2 hs hc2
    rw [show ({ t with error := some (mismatchMsg a t), status := .failed } : Task).started_at
      = t.started_at from rfl, hst] at hs
    exact absurd hs (by simp)

/-- C2 witness: the echo agent's `execute` is contract-conforming; on
a fresh `"echo"` task, `process_task` completes with a result, no
error, and ordered timestamps. -/
theorem process_task_exclusive_outcome_witness :
    (((echoAgent.process_task ((echoAgent.create_task "echo" [] "t0" 0).1) 1).1.status
        = .completed ∨
      (echoAgent.process_task ((echoAgent.create_task "echo" [] "t0" 0).1) 1).1.status
        = .failed)) ∧
    ((echoAgent.process_task ((echoAgent.create_task "echo" [] "t0" 0).1) 1).1.result
        ≠ none ∧
     (echoAgent.process_task ((echoAgent.create_task "echo" [] "t0" 0).1) 1).1.error
        = none) := by
  have h := process_task_exclusive_outcome echoAgent
    ((echoAgent.create_task "echo" [] "t0" 0).1) 1
    (fun _ => ⟨rfl, rfl, rfl, rfl⟩)
    (fun u hu _ => ⟨by simp [echoAgent, echoExec], by simpa [echoAgent, echoExec] using hu⟩)
    (fun u v _ hv => by simp [echoAgent, echoExec] at hv)
    (fun u m _ hm => by simp [echoAgent, echoExec] at hm)
    rfl rfl rfl rfl (by decide)
  exact ⟨h.1, h.2.1 rfl⟩

/-- C4: when the head of the queue is a task whose resolved agent's
`execute` raises, one pump-loop iteration records the failure on the
task (status `failed`, `error` = the exception's message), appends it
to the `failed` ledger, leaves the `completed` ledger untouched, and
pops the queue so subsequent tasks get processed. -/
theorem worker_step_exec_failure (st : Orch) (agent_name : String) (t t2 : Task)
    (rest : List (String × Task)) (a : Agent) (clock : Nat) (msg : String)
    (hq : st.task_queue = (agent_name, t) :: rest)
    (ha : st.get_agent agent_name = some a)
    (hcap : a.can_handle t.type = true)
    (hexn : a.exec { t with status := .running, started_at := some clock } = (t2, .exn msg)) :
    ∃ t' : Task,
      (st.worker_step clock).1.failed_tasks = st.failed_tasks ++ [t'] ∧
      (st.worker_step clock).1.completed_tasks = st.completed_tasks ∧
      (st.worker_step clock).1.task_queue = rest ∧
      t'.status = .failed ∧ t'.error = some msg := by
  have hproc : a.process_task t clock =
      ({ t2 with status := .failed, error := some msg, completed_at := some (clock + 1) },
        clock + 2) := by
    unfold Agent.process_task Agent.validate_task
    rw [if_pos hcap]
    simp only [hexn]
  refine ⟨{ t2 with status := .failed, error := some msg, completed_at := some (clock + 1) },
    ?_, ?_, ?_, rfl, rfl⟩ <;>
  · unfold Orch.worker_step
    rw [hq]
    simp only [show ({ st with task_queue := rest } : Orch).get_agent agent_name
        = some a from ha, hproc]
    simp

/-- C4 witness: a queue holding a `"fail"` task for the boom agent;
one pump step records `failed` / `"boom"`, the failed ledger gains the
task, the completed ledger stays empty, the queue empties. -/
theorem worker_step_exec_failure_witness :
    ∃ t' : Task,
      ((Orch.mk [("w2", boomAgent)] [("w2", (boomAgent.create_task "fail" [] "t0" 0).1)]
          [] [] true).worker_step 1).1.failed_tasks = [] ++ [t'] ∧
      ((Orch.mk [("w2", boomAgent)] [("w2", (boomAgent.create_task "fail" [] "t0" 0).1)]
          [] [] true).worker_step 1).1.completed_tasks = [] ∧
      ((Orch.mk [("w2", boomAgent)] [("w2", (boomAgent.create_task "fail" [] "t0" 0).1)]
          [] [] true).worker_step 1).1.task_queue = [] ∧
      t'.status = .failed ∧ t'.error = some "boom" :=
  worker_step_exec_failure
    (Orch.mk [("w2", boomAgent)] [("w2", (boomAgent.create_task "fail" [] "t0" 0).1)] [] [] true)
    "w2" ((boomAgent.create_task "fail" [] "t0" 0).1)
    ({ (boomAgent.create_task "fail" [] "t0" 0).1 with status := .running, started_at := some 1 })
    [] boomAgent 1 "boom" rfl rfl rfl rfl

/-- Routing failure exactly as the claim words it: with no explicit
name, no registered agent can handle the kind; with an explicit name,
that agent does not exist or cannot handle the kind. -/
def routing_fails (st : Orch) (ty : String) : Option String → Prop
  | none => ∀ q ∈ st.agents, q.2.can_handle ty = false
  | some n => st.get_agent n = none ∨
      ∃ a, st.get_agent n = some a ∧ a.can_handle ty = false

/-- C5: `submit_task` returns `none` exactly when routing fails, in
which case the whole state (in particular the queue) is unchanged;
otherwise it returns the pending task freshly created by the chosen
capable agent and appends exactly one `(agent.name, task)` pair to the
queue. -/
theorem submit_task_routing (st : Orch) (ty : String) (p : PMap)
    (an : Option String) (tid : String) (c : Nat) :
    ((st.submit_task ty p an tid c).1 = none ↔ routing_fails st ty an) ∧
    ((st.submit_task ty p an tid c).1 = none → (st.submit_task ty p an tid c).2 = st) ∧
    (∀ t, (st.submit_task ty p an tid c).1 = some t →
       t.status = .pending ∧ t.id = tid ∧ t.type = ty ∧ t.created_at = c ∧
       ∃ nm a, (nm, a) ∈ st.agents ∧ a.can_handle ty = true ∧
         (st.submit_task ty p an tid c).2.task_queue = st.task_queue ++ [(a.name, t)]) := by
  cases an with
  | some n =>
    cases ha : st.get_agent n with
    | none =>
      simp only [Orch.submit_task, ha]
      refine ⟨?_, by simp, by simp⟩
      simp [routing_fails, ha]
    | some a =>
      by_cases hcap : a.can_handle ty
      · simp only [Orch.submit_task, ha, if_pos hcap]
        refine ⟨?_, fun h => by simp [Orch.submit_to] at h, fun t ht => ?_⟩
        · constructor
          · intro h
            simp [Orch.submit_to] at h
          · intro h
            rcases h with h | ⟨a', ha', hcap'⟩
            · rw [ha] at h; cases h
            · rw [ha] at ha'
              cases ha'
              rw [hcap] at hcap'
              cases hcap'
        · have hT : t = (a.create_task ty p tid c).1 := by
            simp [Orch.submit_to] at ht
            exact ht.symm
          subst hT
          refine ⟨rfl, rfl, rfl, rfl, n, a, dget_mem n a st.agents ha, hcap, ?_⟩
          simp [Orch.submit_to]
      · simp only [Orch.submit_task, ha, if_neg hcap]
        refine ⟨?_, by simp, by simp⟩
        simp only [routing_fails]
        constructor
        · intro _
          exact Or.inr ⟨a, ha, by simpa using hcap⟩
        · intro _
          trivial
  | none =>
    cases hf : st.find_agent_for_task ty with
    | none =>
      simp only [Orch.submit_task, hf]
      refine ⟨?_, by simp, by simp⟩
      simp only [routing_fails]
      constructor
      · intro _ q hq
        have hn : st.agents.find? (fun q => q.2.can_handle ty) = none := by
          have h0 := hf
          unfold Orch.find_agent_for_task at h0
          exact Option.map_eq_none'.1 h0
        have := List.find?_eq_none.1 hn q hq
        simpa using this
      · intro _
        trivial
    | some a =>
      obtain ⟨q, hq, hqa⟩ := Option.map_eq_some'.1
        (show (st.agents.find? (fun q => q.2.can_handle ty)).map Prod.snd = some a from hf)
      have hcap : a.can_handle ty = true := by
        have := List.find?_some hq
        rw [hqa] at this
        simpa using this
      have hmem : (q.1, a) ∈ st.agents := by
        have := List.mem_of_find?_eq_some hq
        rwa [show (q.1, a) = q from by rw [← hqa]]
      simp only [Orch.submit_task, hf]
      refine ⟨?_, fun h => by simp [Orch.submit_to] at h, fun t ht => ?_⟩
      · constructor
        · intro h
          simp [Orch.submit_to] at h
        · intro h
          have := h (q.1, a) hmem
          rw [hcap] at this
          cases this
      · have hT : t = (a.create_task ty p tid c).1 := by
          simp [Orch.submit_to] at ht
          exact ht.symm
        subst hT
        exact ⟨rfl, rfl, rfl, rfl, q.1, a, hmem, hcap, by simp [Orch.submit_to]⟩

/-- C5 witness: submitting `"echo"` to a registry holding only the
echo agent enqueues one pair for a fresh pending task, while
submitting `"unknown"` returns `none` and leaves the state
unchanged. -/
theorem submit_task_routing_witness :
    (((Orch.mk [("w1", echoAgent)] [] [] [] true).submit_task "unknown" [] none "t9" 7).1 = none ∧
     ((Orch.mk [("w1", echoAgent)] [] [] [] true).submit_task "unknown" [] none "t9" 7).2 =
       Orch.mk [("w1", echoAgent)] [] [] [] true) ∧
    (∀ t, ((Orch.mk [("w1", echoAgent)] [] [] [] true).submit_task "echo" [] none "t9" 7).1
        = some t →
      t.status = .pending ∧ t.id = "t9" ∧ t.type = "echo" ∧ t.created_at = 7 ∧
      ∃ nm a, (nm, a) ∈ (Orch.mk [("w1", echoAgent)] [] [] [] true).agents ∧
        a.can_handle "echo" = true ∧
        ((Orch.mk [("w1", echoAgent)] [] [] [] true).submit_task "echo" [] none "t9" 7).2.task_queue
          = [] ++ [(a.name, t)]) := by
  constructor
  · constructor
    · exact (submit_task_routing (Orch.mk [("w1", echoAgent)] [] [] [] true)
        "unknown" [] none "t9" 7).1.2 (by intro q hq; simp at hq; rw [hq]; rfl)
    · exact (submit_task_routing (Orch.mk [("w1", echoAgent)] [] [] [] true)
        "unknown" [] none "t9" 7).2.1
        ((submit_task_routing (Orch.mk [("w1", echoAgent)] [] [] [] true)
          "unknown" [] none "t9" 7).1.2 (by intro q hq; simp at hq; rw [hq]; rfl))
  · exact (submit_task_routing (Orch.mk [("w1", echoAgent)] [] [] [] true)
      "echo" [] none "t9" 7).2.2

end SynthPlatform

namespace SynthPlatform

/-- A terminal task pair used to exhibit a nonzero ledger. -/
def doneTask : Task :=
  { id := "d1", type := "echo", payload := [], status := .completed,
    result := some [], error := none, created_at := 0,
    started_at := some 1, completed_at := some 2 }

def failTask : Task :=
  { id := "d2", type := "fail", payload := [], status := .failed,
    result := none, error := some "boom", created_at := 0,
    started_at := some 1, completed_at := some 2 }

/-- C7 counterexample: with one completed and one failed task,
`get_system_status` reports `success_rate = 50` — the percentage
`|completed| / totalTerminal * 100` — not the plain ratio
`|completed| / totalTerminal = 1/2` the claim states. -/
theorem success_rate_is_percentage_counterexample :
    (Orch.mk [] [] [doneTask] [failTask] true).get_system_status.success_rate = 50 ∧
    (Orch.mk [] [] [doneTask] [failTask] true).get_system_status.success_rate ≠
      ((Orch.mk [] [] [doneTask] [failTask] true).completed_tasks.length : ℚ) /
        (((Orch.mk [] [] [doneTask] [failTask] true).completed_tasks.length +
          (Orch.mk [] [] [doneTask] [failTask] true).failed_tasks.length : Nat) : ℚ) := by
  constructor
  · show (if 0 + 1 + (0 + 1) > 0 then ((1 : Nat) : ℚ) / ((1 + 1 : Nat) : ℚ) * 100 else 0) = 50
    norm_num
  · show (if 0 + 1 + (0 + 1) > 0 then ((1 : Nat) : ℚ) / ((1 + 1 : Nat) : ℚ) * 100 else 0) ≠ _
    norm_num

/-- C7 (amended): `get_system_status` computes, at call time,
`total_tasks_processed` as the sum of the two ledger lengths,
`queue_size` as the current queue length, and `success_rate` as the
percentage `|completed| / totalTerminal * 100`, with the value 0 (not
an error) when no terminal task exists.  The product form
`success_rate * totalTerminal = 100 * |completed|` holds in every
state. -/
theorem get_system_status_metrics (st : Orch) :
    st.get_system_status.total_tasks_processed =
      st.completed_tasks.length + st.failed_tasks.length ∧
    st.get_system_status.queue_size = st.task_queue.length ∧
    (st.completed_tasks.length + st.failed_tasks.length = 0 →
       st.get_system_status.success_rate = 0) ∧
    st.get_system_status.success_rate *
        ((st.completed_tasks.length + st.failed_tasks.length : Nat) : ℚ) =
      100 * (st.completed_tasks.length : ℚ) := by
  refine ⟨rfl, rfl, ?_, ?_⟩
  · intro h0
    show (if st.completed_tasks.length + st.failed_tasks.length > 0 then _ else (0 : ℚ)) = 0
    rw [if_neg (by omega)]
  · by_cases h : st.completed_tasks.length + st.failed_tasks.length > 0
    · show (if st.completed_tasks.length + st.failed_tasks.length > 0 then
          (st.completed_tasks.length : ℚ) /
            ((st.completed_tasks.length + st.failed_tasks.length : Nat) : ℚ) * 100
        else 0) * _ = _
      rw [if_pos h]
      push_cast
      have hne : (st.completed_tasks.length : ℚ) + (st.failed_tasks.length : ℚ) ≠ 0 := by
        have hpos : (0 : ℚ) < (st.completed_tasks.length : ℚ) + (st.failed_tasks.length : ℚ) := by
          exact_mod_cast h
        linarith
      field_simp
      ring
    · have h0 : st.completed_tasks.length = 0 := by omega
      have h1 : st.completed_tasks.length + st.failed_tasks.length = 0 := by omega
      show (if st.completed_tasks.length + st.failed_tasks.length > 0 then _ else (0 : ℚ)) * _ = _
      rw [if_neg (by omega), h0]
      norm_num

/-- C7 witness: an empty orchestrator has zero terminal tasks and
reports `success_rate = 0` without error. -/
theorem get_system_status_metrics_witness :
    (Orch.mk [] [] [] [] false).get_system_status.success_rate = 0 ∧
    (Orch.mk [] [] [] [] false).get_system_status.total_tasks_processed = 0 ∧
    (Orch.mk [] [] [] [] false).get_system_status.queue_size = 0 :=
  ⟨(get_system_status_metrics (Orch.mk [] [] [] [] false)).2.2.1 rfl,
   (get_system_status_metrics (Orch.mk [] [] [] [] false)).1,
   (get_system_status_metrics (Orch.mk [] [] [] [] false)).2.1⟩

end SynthPlatform

namespace SynthPlatform

/-- C6 (source defect, flagged in the spec's design notes): a
capability-routed workflow step (no explicit agent name) submits
successfully — a capable agent exists and is found — but the poll
loop's re-read `self.get_agent(agent_name).get_task(task.id) if
agent_name else None` sets the task to `None` because `agent_name` is
`None`, and the next `task.status` check raises `AttributeError`
instead of re-reading the task from its owning worker's table.  The
workflow aborts with the exception rather than returning the polled
task. -/
theorem workflow_routed_step_poll_crash :
    (Orch.mk [("w1", echoAgent)] [] [] [] true).execute_workflow 3
        [{ type := "echo", payload := [], agent := none, continue_on_failure := none }] 0 0
      = .error attrErrMsg ∧
    (Orch.mk [("w1", echoAgent)] [] [] [] true).find_agent_for_task "echo" = some echoAgent :=
  ⟨rfl, rfl⟩

/-- C8: when a step's submission succeeded and its task polled to a
terminal `failed` status, `execute_workflow` stops and returns the
tasks collected so far (here: this step's task) exactly when the
step's `continue_on_failure` flag is `false`; an absent flag defaults
to `true` (`Option.getD`), in which case the remaining steps are
processed and their results appended after the failed task. -/
theorem workflow_failure_propagation (st st1 st2 : Orch) (step : WStep)
    (rest : List WStep) (fuel clock nid c2 : Nat) (t tfin : Task)
    (hsub : st.submit_task step.type step.payload step.agent (taskId nid) clock = (some t, st1))
    (hpoll : st1.pollLoop fuel (clock + 1) step.agent t = .ok (tfin, st2, c2))
    (hfail : tfin.status = .failed) :
    st.execute_workflow fuel (step :: rest) clock nid =
      if step.continue_on_failure.getD true = false then
        .ok ([tfin], st2, c2, nid + 1)
      else
        (st2.execute_workflow fuel rest c2 (nid + 1)).map
          (fun r => (tfin :: r.1, r.2)) := by
  simp only [Orch.execute_workflow, hsub, hpoll, hfail]
  simp

/-- C8 witness: two explicitly-named failing steps; the first carries
`continue_on_failure := false`, so the workflow returns exactly one
task (the failed first task) and never runs the second step. -/
theorem workflow_failure_propagation_witness :
    (Orch.mk [("w2", boomAgent)] [] [] [] true).execute_workflow 5
        [{ type := "fail", payload := [], agent := some "w2", continue_on_failure := some false },
         { type := "fail", payload := [], agent := some "w2", continue_on_failure := none }] 0 0
      = .ok ([{ id := "task-0", type := "fail", payload := [], status := .failed,
                result := none, error := some "boom", created_at := 0,
                started_at := some 1, completed_at := some 2 }],
             (((Orch.mk [("w2", boomAgent)] [] [] [] true).submit_task "fail" []
                 (some "w2") (taskId 0) 0).2.worker_step 1).1, 3, 1) := by
  have h := workflow_failure_propagation
    (Orch.mk [("w2", boomAgent)] [] [] [] true) _ _
    { type := "fail", payload := [], agent := some "w2", continue_on_failure := some false }
    [{ type := "fail", payload := [], agent := some "w2", continue_on_failure := none }]
    5 0 0 _ _ _ rfl rfl rfl
  rw [h]
  rfl

end SynthPlatform
